import Mathlib

/-!
Verification development for the structural (AST) pattern search engine of
the side-quest-kit repository: a shallow embedding, in Lean 4, of the
pattern compiler (pattern.ts), the tree searcher (searcher.ts), the language
registry (languages.ts) and the input validators (index.ts), together with
theorems settling the frozen specification claims about them.

Strings are modelled as lists of characters so that every operation of the
JavaScript source (substring, includes, slice, toLowerCase, trim) becomes an
executable Lean function.
-/

/-- Strings of the embedded program: JavaScript strings as lists of UTF-16
units, modelled as Lean characters. -/
abbrev Str := List Char

/-- Embedding of the JavaScript prefix test used to build the substring
test: does the first list start with the second? -/
def strStartsWith : Str → Str → Bool
  | _, [] => true
  | [], _ :: _ => false
  | a :: as, b :: bs => a == b && strStartsWith as bs

/-- Embedding of JavaScript String.prototype.includes: does the haystack
contain the needle as a contiguous substring?  The empty needle is contained
in every string, as in JavaScript. -/
def strIncludes : Str → Str → Bool
  | hay, needle =>
    if strStartsWith hay needle then true
    else
      match hay with
      | [] => false
      | _ :: t => strIncludes t needle

/-- Embedding of JavaScript String.prototype.toLowerCase, character by
character (the sources only ever lower-case ASCII identifiers and keywords). -/
def toLowerStr (s : Str) : Str := s.map Char.toLower

/-- Embedding of JavaScript String.prototype.substring(a, b) for the
in-range uses of the sources: drop a characters, keep b - a. -/
def substringJs (s : Str) (a b : Nat) : Str := (s.drop a).take (b - a)

/-- Embedding of JavaScript String.prototype.trim. -/
def trimStr (s : Str) : Str :=
  (s.dropWhile Char.isWhitespace).reverse.dropWhile Char.isWhitespace |>.reverse

/-- Data carried by one tree-sitter syntax node: its type tag, its byte
range into the source, its start position, and the grammar field name this
node occupies in its parent (used by childForFieldName). -/
structure NodeData where
  type : Str
  startIndex : Nat
  endIndex : Nat
  row : Nat
  col : Nat
  fieldName : Option Str := none
deriving DecidableEq

/-- A tree-sitter syntax node: node data plus the ordered list of children.
This is the SyntaxNode type of languages.ts (web-tree-sitter Node). -/
inductive SNode where
  | mk (data : NodeData) (children : List SNode)

/-- Data of a node. -/
def SNode.data : SNode → NodeData
  | .mk d _ => d

/-- Children of a node. -/
def SNode.children : SNode → List SNode
  | .mk _ cs => cs

/-- Type tag of a node (node.type in the source). -/
def SNode.ntype (n : SNode) : Str := n.data.type

/-- Embedding of node.text (equally of getNodeText in pattern.ts):
the slice of the source between the node's start and end indices. -/
def nodeText (n : SNode) (source : Str) : Str :=
  substringJs source n.data.startIndex n.data.endIndex

/-- Embedding of node.childForFieldName(name): the first child occupying
the given grammar field. -/
def childForFieldName (n : SNode) (name : Str) : Option SNode :=
  n.children.find? (fun c => c.data.fieldName == some name)

/-- FUNCTION_NODE_TYPES of pattern.ts: node types that represent function
definitions across the supported languages. -/
def FUNCTION_NODE_TYPES : List Str :=
  ["function_declaration".toList,
   "function_expression".toList,
   "arrow_function".toList,
   "method_definition".toList,
   "generator_function_declaration".toList,
   "function_definition".toList]

/-- CLASS_NODE_TYPES of pattern.ts: node types that represent class
definitions across the supported languages. -/
def CLASS_NODE_TYPES : List Str :=
  ["class_declaration".toList,
   "class_expression".toList,
   "class_definition".toList]

/-- TRY_NODE_TYPES of pattern.ts. -/
def TRY_NODE_TYPES : List Str :=
  ["try_statement".toList]

/-- Search modes of types.ts: simple (natural language) or pattern (JSON
criteria). -/
inductive SearchMode where
  | simple
  | pattern
deriving DecidableEq

/-- PatternCriteria of types.ts: the optional fields of a criteria-mode
pattern object.  A missing field is none; a field present in the JSON
object is some value of the declared type. -/
structure PatternCriteria where
  type : Option Str := none
  async : Option Bool := none
  name : Option Str := none
  textMatch : Option Str := none
deriving DecidableEq

/-- Truthiness of an optional JavaScript string: present and non-empty
(the empty string is falsy in JavaScript). -/
def truthyS : Option Str → Bool
  | none => false
  | some s => !s.isEmpty

/-- Compiled state of the ASTPattern class of pattern.ts: the pattern
text, the mode, the simple-mode keyword flags and the criteria record. -/
structure ASTPattern where
  pattern : Str
  mode : SearchMode
  isAsync : Bool := false
  isDef : Bool := false
  isClass : Bool := false
  isTry : Bool := false
  isImport : Bool := false
  isExport : Bool := false
  criteria : PatternCriteria := {}
deriving DecidableEq

/-- Embedding of ASTPattern.compileSimple: lower-case the pattern, set the
keyword flags by substring presence, and fall back to a text-match criteria
object when no keyword flag was set. -/
def compileSimple (patternText : Str) : ASTPattern :=
  let lower := toLowerStr patternText
  let isAsync := strIncludes lower "async".toList
  let isDef := strIncludes lower "function".toList || strIncludes lower "def".toList ||
    strIncludes lower "method".toList
  let isClass := strIncludes lower "class".toList
  let isTry := strIncludes lower "try".toList || strIncludes lower "catch".toList
  let isImport := strIncludes lower "import".toList
  let isExport := strIncludes lower "export".toList
  let criteria : PatternCriteria :=
    if !isAsync && !isDef && !isClass && !isTry && !isImport && !isExport then
      { textMatch := some patternText }
    else {}
  { pattern := patternText, mode := SearchMode.simple,
    isAsync := isAsync, isDef := isDef, isClass := isClass,
    isTry := isTry, isImport := isImport, isExport := isExport,
    criteria := criteria }

/-- Embedding of ASTPattern.compilePattern: parse the pattern text as a
JSON criteria object; on parse failure fall back to a text-match criteria
object.  JSON parsing itself is an external runtime facility, so the parse
is supplied as a function argument. -/
def compilePattern (jsonParse : Str → Option PatternCriteria) (patternText : Str) : ASTPattern :=
  match jsonParse patternText with
  | some c => { pattern := patternText, mode := SearchMode.pattern, criteria := c }
  | none =>
      { pattern := patternText, mode := SearchMode.pattern,
        criteria := { textMatch := some patternText } }

/-- Embedding of the ASTPattern constructor followed by compile: dispatch
on the mode. -/
def ASTPattern.create (jsonParse : Str → Option PatternCriteria)
    (patternText : Str) (mode : SearchMode) : ASTPattern :=
  match mode with
  | SearchMode.simple => compileSimple patternText
  | SearchMode.pattern => compilePattern jsonParse patternText

/-- Embedding of ASTPattern.isFunctionNode. -/
def isFunctionNodeP (type : Str) : Bool := FUNCTION_NODE_TYPES.contains type

/-- Embedding of ASTPattern.isClassNode. -/
def isClassNodeP (type : Str) : Bool := CLASS_NODE_TYPES.contains type

/-- Embedding of ASTPattern.hasAsyncModifier: a direct child node of type
async, or the substring async within the first 10 characters of the node's
text. -/
def hasAsyncModifier (n : SNode) (source : Str) : Bool :=
  n.children.any (fun c => c.ntype == "async".toList) ||
    strIncludes ((nodeText n source).take 10) "async".toList

/-- Embedding of ASTPattern.getNodeName of pattern.ts: the first child of
type identifier, type_identifier or property_identifier, else the child in
grammar field name, else undefined. -/
def getNodeNameP (n : SNode) (source : Str) : Option Str :=
  match n.children.find? (fun c =>
      c.ntype == "identifier".toList || c.ntype == "type_identifier".toList ||
      c.ntype == "property_identifier".toList) with
  | some child => some (substringJs source child.data.startIndex child.data.endIndex)
  | none =>
      match childForFieldName n "name".toList with
      | some child => some (substringJs source child.data.startIndex child.data.endIndex)
      | none => none

/-- Embedding of ASTPattern.matchesSimple: when any construct flag is set,
check every requested construct classification (plus the async modifier when
both the async and the definition flags are set); otherwise fall back to a
text match when the compiled criteria carry a truthy textMatch. -/
def matchesSimple (p : ASTPattern) (n : SNode) (source : Str) : Bool :=
  let nt := n.ntype
  if p.isDef || p.isClass || p.isTry || p.isImport || p.isExport then
    if p.isDef && !isFunctionNodeP nt then false
    else if p.isClass && !isClassNodeP nt then false
    else if p.isTry && !TRY_NODE_TYPES.contains nt then false
    else if p.isImport && !strIncludes nt "import".toList then false
    else if p.isExport && !strIncludes nt "export".toList then false
    else if p.isAsync && p.isDef && !hasAsyncModifier n source then false
    else true
  else
    match p.criteria.textMatch with
    | some tm => if !tm.isEmpty then strIncludes (nodeText n source) tm else false
    | none => false

/-- Embedding of ASTPattern.matchesPattern: each truthy criteria field must
hold of the node; a present async field (true or false) must equal the
node's async-modifier state; finally, a criteria object with no truthy
field (where async counts only when it is true) matches nothing. -/
def matchesPattern (c : PatternCriteria) (n : SNode) (source : Str) : Bool :=
  if truthyS c.type && !(n.ntype == c.type.getD []) then false
  else if c.async.isSome && !(hasAsyncModifier n source == c.async.getD false) then false
  else if truthyS c.name && !(getNodeNameP n source == some (c.name.getD [])) then false
  else if truthyS c.textMatch && !(strIncludes (nodeText n source) (c.textMatch.getD [])) then false
  else if !truthyS c.type && !(c.async == some true) && !truthyS c.name &&
      !truthyS c.textMatch then false
  else true

/-- Embedding of ASTPattern.matches: dispatch on the compiled mode. -/
def ASTPattern.matches (p : ASTPattern) (n : SNode) (source : Str) : Bool :=
  match p.mode with
  | SearchMode.simple => matchesSimple p n source
  | SearchMode.pattern => matchesPattern p.criteria n source

/-- MAX_FILE_SIZE of searcher.ts: 5 MB. -/
def MAX_FILE_SIZE : Nat := 5 * 1024 * 1024

/-- MAX_TEXT_LENGTH of searcher.ts: maximum text length included in a
match result. -/
def MAX_TEXT_LENGTH : Nat := 500

/-- PARALLEL_CHUNK_SIZE of searcher.ts: number of files parsed per chunk. -/
def PARALLEL_CHUNK_SIZE : Nat := 10

/-- SKIP_DIRS of searcher.ts: directory names skipped during traversal. -/
def SKIP_DIRS : List Str :=
  ["node_modules".toList, ".git".toList, ".svn".toList, ".hg".toList,
   "__pycache__".toList, ".pytest_cache".toList, ".mypy_cache".toList,
   "dist".toList, "build".toList, ".next".toList, ".nuxt".toList,
   "coverage".toList, ".coverage".toList, "venv".toList, ".venv".toList,
   "env".toList, ".env".toList]

/-- Embedding of ASTSearcher.truncateText: text of at most MAX_TEXT_LENGTH
characters is returned unchanged; longer text is cut to MAX_TEXT_LENGTH - 3
characters followed by three dots. -/
def truncateText (text : Str) : Str :=
  if text.length ≤ MAX_TEXT_LENGTH then text
  else text.take (MAX_TEXT_LENGTH - 3) ++ "...".toList

/-- Embedding of ASTSearcher.isFunctionNode (the searcher keeps its own
copy of the function-like node-type list). -/
def isFunctionNodeS (type : Str) : Bool :=
  ["function_declaration".toList, "function_definition".toList,
   "function_expression".toList, "arrow_function".toList,
   "method_definition".toList,
   "generator_function_declaration".toList].contains type

/-- Embedding of ASTSearcher.isClassNode. -/
def isClassNodeS (type : Str) : Bool :=
  ["class_declaration".toList, "class_definition".toList,
   "class_expression".toList].contains type

/-- Embedding of ASTSearcher.getNodeName of searcher.ts: the child in
grammar field name first, else the first child of type identifier or
type_identifier, else undefined.  This differs from the pattern compiler's
getNodeName, which tries identifier children first. -/
def getNodeNameS (n : SNode) (source : Str) : Option Str :=
  match childForFieldName n "name".toList with
  | some child => some (substringJs source child.data.startIndex child.data.endIndex)
  | none =>
      match n.children.find? (fun c =>
          c.ntype == "identifier".toList || c.ntype == "type_identifier".toList) with
      | some child => some (substringJs source child.data.startIndex child.data.endIndex)
      | none => none

/-- ASTMatchContext of types.ts. -/
structure ASTMatchContext where
  nodeType : Str
  parentFunction : Option Str := none
  parentClass : Option Str := none
deriving DecidableEq

/-- ASTMatch of types.ts. -/
structure ASTMatch where
  file : Str
  line : Nat
  column : Nat
  nodeType : Str
  text : Str
  context : ASTMatchContext
deriving DecidableEq

/-- Embedding of ASTSearcher.getContext: walk from the matched node toward
the root; the first ancestor classified function-like sets parentFunction,
else the first ancestor classified class-like sets parentClass; the walk
stops at the first ancestor of either kind.  The ancestor chain is passed
explicitly, nearest ancestor first (the source follows parent pointers). -/
def getContextWalk (n : SNode) (source : Str) : List SNode → ASTMatchContext
  | [] => { nodeType := n.ntype }
  | p :: rest =>
      if isFunctionNodeS p.ntype then
        { nodeType := n.ntype, parentFunction := getNodeNameS p source }
      else if isClassNodeS p.ntype then
        { nodeType := n.ntype, parentClass := getNodeNameS p source }
      else getContextWalk n source rest

/-- Context of a matched node: the walk applied to its ancestor chain. -/
def getContext (n : SNode) (ancestors : List SNode) (source : Str) : ASTMatchContext :=
  getContextWalk n source ancestors

/-- Embedding of the path helper relative(repoPath, filePath) for the files
this searcher produces, which always live under the repository path: strip
the repository prefix plus the path separator. -/
def relativePath (repoPath filePath : Str) : Str :=
  if strStartsWith filePath (repoPath ++ "/".toList) then
    filePath.drop (repoPath.length + 1)
  else filePath

/-- Embedding of ASTSearcher.createMatch. -/
def createMatch (n : SNode) (ancestors : List SNode) (source : Str)
    (repoPath filePath : Str) : ASTMatch :=
  { file := relativePath repoPath filePath,
    line := n.data.row + 1,
    column := n.data.col,
    nodeType := n.ntype,
    text := truncateText (substringJs source n.data.startIndex n.data.endIndex),
    context := getContext n ancestors source }

mutual

/-- Embedding of ASTSearcher.searchNode: depth-first pre-order walk; every
node the pattern accepts yields one match; the ancestor chain (nearest
first) stands in for the parent pointers of the source tree. -/
def searchNode (p : ASTPattern) (source : Str) (repoPath filePath : Str)
    (ancestors : List SNode) : SNode → List ASTMatch
  | SNode.mk d cs =>
      let n := SNode.mk d cs
      (if p.matches n source then [createMatch n ancestors source repoPath filePath] else []) ++
        searchNodes p source repoPath filePath (n :: ancestors) cs

/-- Recursion of searchNode over a child list, in order. -/
def searchNodes (p : ASTPattern) (source : Str) (repoPath filePath : Str)
    (ancestors : List SNode) : List SNode → List ASTMatch
  | [] => []
  | c :: cs =>
      searchNode p source repoPath filePath ancestors c ++
        searchNodes p source repoPath filePath ancestors cs

end

/-- Search of one parsed tree from its root, as searchFile does after a
successful parse: the root node has no ancestors. -/
def searchTree (p : ASTPattern) (source : Str) (repoPath filePath : Str)
    (root : SNode) : List ASTMatch :=
  searchNode p source repoPath filePath [] root

/-- LANGUAGES of languages.ts: file extension to language mapping. -/
def LANGUAGES : List (Str × Str) :=
  [(".ts".toList, "typescript".toList),
   (".tsx".toList, "tsx".toList),
   (".mts".toList, "typescript".toList),
   (".cts".toList, "typescript".toList),
   (".js".toList, "javascript".toList),
   (".jsx".toList, "javascript".toList),
   (".mjs".toList, "javascript".toList),
   (".cjs".toList, "javascript".toList),
   (".py".toList, "python".toList)]

/-- SUPPORTED_LANGUAGES of languages.ts. -/
def SUPPORTED_LANGUAGES : List Str :=
  ["typescript".toList, "tsx".toList, "javascript".toList, "python".toList]

/-- Index of the last dot of a path, as String.prototype.lastIndexOf
computes it; none when the path has no dot. -/
def lastDotIndex (s : Str) : Option Nat :=
  (List.range s.length).foldl
    (fun acc i => if s.get? i == some '.' then some i else acc) none

/-- Embedding of detectLanguage of languages.ts: take the extension from
the last dot, lower-case it, look it up in LANGUAGES and keep the result
only when it is a supported language. -/
def detectLanguage (filePath : Str) : Option Str :=
  match lastDotIndex filePath with
  | none => none
  | some i =>
      let ext := toLowerStr (filePath.drop i)
      match (LANGUAGES.find? (fun p => p.1 == ext)).map Prod.snd with
      | some lang => if SUPPORTED_LANGUAGES.contains lang then some lang else none
      | none => none

/-- Embedding of isSupported of languages.ts. -/
def isSupported (filePath : Str) : Bool := (detectLanguage filePath).isSome

/-- Snapshot of one directory subtree: a named file with its size, or a
named directory with its listed entries (readdir order). -/
inductive DirTree where
  | file (name : Str) (size : Nat)
  | dir (name : Str) (entries : List DirTree)

/-- Name of a directory entry. -/
def DirTree.name : DirTree → Str
  | .file n _ => n
  | .dir n _ => n

/-- Arrival schedule of the concurrent directory walk: for every directory
path, the order (as a list of entry positions) in which the per-entry tasks
of the Promise.all in walkDirectory complete and push their contribution.
The listing order is the schedule mapping every path to the identity
permutation of its entries. -/
def Schedule := Str → List Nat

/-- Reordering of per-entry contributions by an arrival schedule: pick the
contribution lists in completion order. -/
def applyArrival (perm : List Nat) (contribs : List (List Str)) : List (List Str) :=
  perm.filterMap (fun i => contribs.get? i)

/-- Environment of one search: the external collaborators of the searcher.
The file contents and the parser are functions of the snapshot; a none
result of readFile is a read error (the promise rejects), a none result of
parse is the empty tree of a parse failure, and grammarOk tells whether the
grammar artifact of a language can be loaded (getParser rejects when not).
globMatch is the external Bun.Glob matcher and jsonParse the external JSON
parser. -/
structure SearchEnv where
  readFile : Str → Option Str
  parse : Str → Str → Option SNode
  grammarOk : Str → Bool
  globMatch : Str → Str → Bool
  jsonParse : Str → Option PatternCriteria

/-- Embedding of ASTSearcher.matchesFilePattern: match the path relative to
the repository against the glob. -/
def matchesFilePattern (env : SearchEnv) (repoPath filePath globPattern : Str) : Bool :=
  env.globMatch globPattern (relativePath repoPath filePath)

/-- Candidate test of one walked file entry, as in walkDirectory: the
extension must map to a supported language, the size must not exceed
MAX_FILE_SIZE, and, when a glob filter is given, the relative path must
match it. -/
def fileCandidate (env : SearchEnv) (repoPath fullPath : Str) (size : Nat)
    (filePattern : Option Str) : Bool :=
  if size > MAX_FILE_SIZE then false
  else if !isSupported fullPath then false
  else
    match filePattern with
    | some fp => matchesFilePattern env repoPath fullPath fp
    | none => true

mutual

/-- Embedding of ASTSearcher.walkDirectory over a snapshot: every entry is
checked against SKIP_DIRS and the dotfile rule before the walk descends or
the file is recorded; the per-entry contributions of one directory are
appended in the order the concurrently running entry tasks complete, which
the schedule gives per directory path. -/
def walkEntry (env : SearchEnv) (sched : Schedule) (repoPath : Str)
    (filePattern : Option Str) (dirPath : Str) : DirTree → List Str
  | DirTree.file name size =>
      if SKIP_DIRS.contains name || strStartsWith name ".".toList then []
      else
        let fullPath := dirPath ++ "/".toList ++ name
        if fileCandidate env repoPath fullPath size filePattern then [fullPath] else []
  | DirTree.dir name entries =>
      if SKIP_DIRS.contains name || strStartsWith name ".".toList then []
      else
        let fullPath := dirPath ++ "/".toList ++ name
        (applyArrival (sched fullPath) (walkEntries env sched repoPath filePattern fullPath entries)).flatten

/-- Contribution lists of the entries of one directory, in listing order
(the schedule is applied to this list by walkEntry). -/
def walkEntries (env : SearchEnv) (sched : Schedule) (repoPath : Str)
    (filePattern : Option Str) (dirPath : Str) : List DirTree → List (List Str)
  | [] => []
  | e :: es =>
      walkEntry env sched repoPath filePattern dirPath e ::
        walkEntries env sched repoPath filePattern dirPath es

end

/-- Embedding of ASTSearcher.getMatchingFiles: walk the repository root.
The root directory tree is the snapshot of the repository path itself, so
the walk starts from its entries. -/
def getMatchingFiles (env : SearchEnv) (sched : Schedule) (repoPath : Str)
    (filePattern : Option Str) (root : List DirTree) : List Str :=
  (applyArrival (sched repoPath) (walkEntries env sched repoPath filePattern repoPath root)).flatten

/-- Embedding of ASTSearcher.searchFile: detect the language (an
unsupported file yields no matches), obtain the parser (none when the
grammar cannot be loaded, since getParser then rejects), read the file
(none on a read error), parse it (zero matches on a null tree), and walk
the tree.  A none result is a per-file error handed to the caller's
onError handler. -/
def searchFile (env : SearchEnv) (repoPath : Str) (p : ASTPattern)
    (filePath : Str) : Option (List ASTMatch) :=
  match detectLanguage filePath with
  | none => some []
  | some lang =>
      if !env.grammarOk lang then none
      else
        match env.readFile filePath with
        | none => none
        | some source =>
            match env.parse lang source with
            | none => some []
            | some tree => some (searchTree p source repoPath filePath tree)

/-- Chunking of a work list into lists of at most cs items, one item
consumed per step (k is the remaining capacity of the open chunk, acc the
open chunk reversed). -/
def chunkAux (cs : Nat) : Nat → List α → List α → List (List α)
  | _, [], acc => if acc.isEmpty then [] else [acc.reverse]
  | 0, x :: xs, acc => acc.reverse :: chunkAux cs (cs - 1) xs [x]
  | k + 1, x :: xs, acc => chunkAux cs k xs (x :: acc)

/-- Chunks of at most cs items each, in order. -/
def chunkify (cs : Nat) (l : List α) : List (List α) :=
  match l with
  | [] => []
  | x :: xs => chunkAux cs (cs - 1) xs [x]

/-- Chunk loop of the parallel processor: process one chunk of items at a
time, replacing a failed item by the onError fallback (the empty list, as
the searcher's onError returns), appending contributions in item order, and
stopping as soon as the accumulated results reach the cap. -/
def goChunks (maxResults : Nat) (f : α → Option (List β)) :
    List (List α) → List β → List β
  | [], acc => acc
  | c :: rest, acc =>
      if maxResults ≤ acc.length then acc
      else goChunks maxResults f rest (acc ++ (c.map (fun a => (f a).getD [])).flatten)

/-- Modelled from the spec: processInParallelChunks of the external
concurrency utility of the side-quest core package, which is not part of
this repository.  Items are processed in fixed-size chunks; a per-item
error is replaced by the onError fallback value; contributions are merged
back in item (discovery) order, not completion order; once the total
reaches maxResults no further chunk is processed and the result is
truncated to exactly maxResults. -/
def processInParallelChunks (chunkSize maxResults : Nat)
    (f : α → Option (List β)) (items : List α) : List β :=
  (goChunks maxResults f (chunkify chunkSize items) []).take maxResults

/-- ASTSearchOptions of types.ts (pattern, optional mode, optional file
glob, optional result cap; the repository path is held by the searcher). -/
structure ASTSearchOptions where
  pattern : Str
  mode : Option SearchMode := none
  filePattern : Option Str := none
  maxResults : Option Nat := none

/-- ASTSearchResult of types.ts.  The field named matches in the source is
called matchList here because matches is a reserved word of Lean. -/
structure ASTSearchResult where
  count : Nat
  matchList : List ASTMatch
  pattern : Str
  mode : SearchMode
  path : Str
deriving DecidableEq

/-- Embedding of ASTSearcher.searchPattern: compile the pattern with the
defaulted mode, walk the snapshot for candidate files, process them in
parallel chunks of PARALLEL_CHUNK_SIZE capped at the defaulted maxResults,
and return the result with count set to the length of the match list. -/
def searchPattern (env : SearchEnv) (sched : Schedule) (repoPath : Str)
    (root : List DirTree) (options : ASTSearchOptions) : ASTSearchResult :=
  let mode := options.mode.getD SearchMode.simple
  let maxResults := options.maxResults.getD 100
  let astPattern := ASTPattern.create env.jsonParse options.pattern mode
  let files := getMatchingFiles env sched repoPath options.filePattern root
  let found := processInParallelChunks PARALLEL_CHUNK_SIZE maxResults
    (searchFile env repoPath astPattern) files
  { count := found.length, matchList := found,
    pattern := options.pattern, mode := mode, path := repoPath }

/-- Environment of the input validators: the default repository path
(the KIT_DEFAULT_PATH variable or the working directory) and the external
core facilities the validators call.  normalize stands for the core
normalizePath, pathExists for pathExistsSync, isDirectory for the statSync
directory test, and globValid, modelled from the spec, for the external
core validateGlob (returning the validated glob on success). -/
structure ValidateEnv where
  defaultPath : Str
  normalize : Str → Str
  pathExists : Str → Bool
  isDirectory : Str → Bool
  globValid : Str → Option Str

/-- PathValidationResult of index.ts. -/
structure PathValidationResult where
  valid : Bool
  path : Option Str := none
  error : Option Str := none
deriving DecidableEq

/-- Embedding of validatePath of index.ts, at the option defaults its
callers use (no base path, must exist, must be a directory): an empty or
whitespace-only path is invalid, then the normalized path must exist and
be a directory. -/
def validatePath (venv : ValidateEnv) (inputPath : Str) : PathValidationResult :=
  if (trimStr inputPath).isEmpty then
    { valid := false, error := some "Path cannot be empty".toList }
  else
    let np := venv.normalize inputPath
    if !venv.pathExists np then
      { valid := false, error := some "Path does not exist".toList }
    else if !venv.isDirectory np then
      { valid := false, error := some "Path is not a directory".toList }
    else { valid := true, path := some np }

/-- Modelled from the spec: validateInteger of the external core validation
module, as validatePositiveInt delegates to it — undefined takes the
default, a value outside the bounds is an error. -/
def validateIntegerM (value : Option Nat) (lo hi dflt : Nat) : Option Nat :=
  match value with
  | none => some dflt
  | some v => if lo ≤ v && v ≤ hi then some v else none

/-- Inputs of validateAstSearchInputs of index.ts. -/
structure AstSearchInputs where
  pattern : Str
  mode : Option Str := none
  filePattern : Option Str := none
  path : Option Str := none
  maxResults : Option Nat := none

/-- Validation result of validateAstSearchInputs: the error list and, when
it is empty, the validated fields. -/
structure AstSearchValidation where
  valid : Bool
  errors : List Str
  vpattern : Str := []
  vmode : Str := []
  vfilePattern : Option Str := none
  vpath : Str := []
  vmaxResults : Nat := 0
deriving DecidableEq

/-- Embedding of validateAstSearchInputs of index.ts: collect an error for
an empty pattern and for an invalid mode; validate the optional glob; for
the path, an absent or empty path input falls back to the default
repository path before validatePath runs (only the fallback path is then
checked); the result cap is validated against the range 1 to 500 with
default 100.  The call is valid exactly when no error was collected. -/
def validateAstSearchInputs (venv : ValidateEnv) (inputs : AstSearchInputs) :
    AstSearchValidation :=
  let patternErrs : List Str :=
    if inputs.pattern.isEmpty || (trimStr inputs.pattern).isEmpty then
      ["Pattern cannot be empty".toList] else []
  let modeStr := toLowerStr (match inputs.mode with
    | some m => if m.isEmpty then "simple".toList else m
    | none => "simple".toList)
  let modeErrs : List Str :=
    if modeStr == "simple".toList || modeStr == "pattern".toList then []
    else ["Invalid mode".toList]
  let fpRes : Option (Option Str) :=
    match inputs.filePattern with
    | some fp =>
        if fp.isEmpty then some none
        else
          match venv.globValid fp with
          | some v => some (some v)
          | none => none
    | none => some none
  let fpErrs : List Str :=
    match fpRes with
    | some _ => []
    | none => ["File pattern invalid".toList]
  let pathInput : Str :=
    match inputs.path with
    | some p => if p.isEmpty then venv.defaultPath else p
    | none => venv.defaultPath
  let pathRes := validatePath venv pathInput
  let pathErrs : List Str :=
    if pathRes.valid then [] else [pathRes.error.getD []]
  let mrRes := validateIntegerM inputs.maxResults 1 500 100
  let mrErrs : List Str :=
    match mrRes with
    | some _ => []
    | none => ["maxResults out of range".toList]
  let errors := patternErrs ++ modeErrs ++ fpErrs ++ pathErrs ++ mrErrs
  if errors.isEmpty then
    { valid := true, errors := [],
      vpattern := trimStr inputs.pattern,
      vmode := modeStr,
      vfilePattern := (fpRes.getD none),
      vpath := pathRes.path.getD [],
      vmaxResults := mrRes.getD 100 }
  else { valid := false, errors := errors }

/-- Embedding of the kit_ast_search tool handler of mcp/index.ts composed
with executeAstSearch of kit-wrapper.ts: validate the inputs and, only when
they are valid, run the search over the snapshot; an invalid call is
rejected with the collected errors and the search never runs.  The timeout
wrapper of executeAstSearch concerns real time and is not modelled. -/
def astSearchTool (venv : ValidateEnv) (env : SearchEnv) (sched : Schedule)
    (root : List DirTree) (inputs : AstSearchInputs) :
    Except (List Str) ASTSearchResult :=
  let v := validateAstSearchInputs venv inputs
  if v.valid then
    Except.ok (searchPattern env sched v.vpath root
      { pattern := v.vpattern,
        mode := some (if v.vmode == "pattern".toList then SearchMode.pattern
          else SearchMode.simple),
        filePattern := v.vfilePattern,
        maxResults := some v.vmaxResults })
  else Except.error v.errors

/-- Per-item contributions of a processor joined in item order, with a
failed item contributing the empty fallback: the sequential reference
semantics of the chunked processor. -/
def joinMapD (f : α → Option (List β)) (items : List α) : List β :=
  (items.map (fun a => (f a).getD [])).flatten

/-- Example node used by the C10 witness. -/
def c10Node : SNode :=
  SNode.mk
    { type := "identifier".toList, startIndex := 0, endIndex := 3, row := 0,
      col := 0 }
    []

/-- Source text of the two-function file of claim C8: the first function
node's text starts with async, the second's does not. -/
def c8Src : Str := "async AAA BBB".toList

/-- Async function node of the C8 file. -/
def c8Fn1 : SNode :=
  SNode.mk
    { type := "function_declaration".toList, startIndex := 0, endIndex := 9,
      row := 0, col := 0 }
    []

/-- Non-async function node of the C8 file. -/
def c8Fn2 : SNode :=
  SNode.mk
    { type := "function_declaration".toList, startIndex := 10, endIndex := 13,
      row := 0, col := 10 }
    []

/-- Root of the C8 file's tree. -/
def c8Root : SNode :=
  SNode.mk
    { type := "program".toList, startIndex := 0, endIndex := 13, row := 0,
      col := 0 }
    [c8Fn1, c8Fn2]

/-- The single match the C8 search yields: the async function node. -/
def c8Match : ASTMatch :=
  { file := "a.ts".toList, line := 1, column := 0,
    nodeType := "function_declaration".toList, text := "async AAA".toList,
    context := { nodeType := "function_declaration".toList } }

/-- Criteria object of the C1 counterexample: only the async field is
given, and it is given as false. -/
def c1Crit : PatternCriteria := { async := some false }

/-- Source text of the C1 counterexample. -/
def c1Src : Str := "abc".toList

/-- Node of the C1 counterexample: an identifier node with no async child
whose text does not contain async. -/
def c1Node : SNode :=
  SNode.mk
    { type := "identifier".toList, startIndex := 0, endIndex := 3, row := 0,
      col := 0 }
    []

/-- Criteria matching as the amended claim C1 words it: every given field
must hold of the node (type equality, async-modifier equality, name
equality, text containment), and at least one field must be effectively
present, where a given async counts as present only when it is true. -/
def matchesPatternSpec (c : PatternCriteria) (n : SNode) (source : Str) : Bool :=
  (match c.type with
   | some t => n.ntype == t
   | none => true) &&
  (match c.async with
   | some b => hasAsyncModifier n source == b
   | none => true) &&
  (match c.name with
   | some nm => getNodeNameP n source == some nm
   | none => true) &&
  (match c.textMatch with
   | some tm => strIncludes (nodeText n source) tm
   | none => true) &&
  (c.type.isSome || c.async == some true || c.name.isSome || c.textMatch.isSome)

/-- Source text of the C9 witness file: one character for the class name,
one for the method name. -/
def c9Src : Str := "Cm".toList

/-- Name child of the C9 class node, in grammar field name. -/
def c9ClassName : SNode :=
  SNode.mk
    { type := "type_identifier".toList, startIndex := 0, endIndex := 1, row := 0,
      col := 0, fieldName := some ("name".toList) }
    []

/-- Name child of the C9 method node, in grammar field name. -/
def c9MethodName : SNode :=
  SNode.mk
    { type := "property_identifier".toList, startIndex := 1, endIndex := 2, row := 0,
      col := 1, fieldName := some ("name".toList) }
    []

/-- Class ancestor of the C9 witness. -/
def c9Class : SNode :=
  SNode.mk
    { type := "class_declaration".toList, startIndex := 0, endIndex := 2, row := 0,
      col := 0 }
    [c9ClassName]

/-- Method ancestor of the C9 witness. -/
def c9Method : SNode :=
  SNode.mk
    { type := "method_definition".toList, startIndex := 1, endIndex := 2, row := 0,
      col := 1 }
    [c9MethodName]

/-- Matched node of the C9 witness, inside the method inside the class. -/
def c9Inner : SNode :=
  SNode.mk
    { type := "identifier".toList, startIndex := 1, endIndex := 2, row := 0,
      col := 1 }
    []

/-- Repository path of the concrete search snapshot. -/
def repoPathEx : Str := "/repo".toList

/-- Source of the first typescript file of the snapshot. -/
def srcA : Str := "function AAAA".toList

/-- Function node of the first typescript file. -/
def fnA : SNode :=
  SNode.mk
    { type := "function_declaration".toList, startIndex := 0, endIndex := 13,
      row := 0, col := 0 }
    []

/-- Tree of the first typescript file. -/
def treeA : SNode :=
  SNode.mk
    { type := "program".toList, startIndex := 0, endIndex := 13, row := 0,
      col := 0 }
    [fnA]

/-- Source of the second typescript file of the snapshot. -/
def srcB : Str := "function BBBB".toList

/-- Function node of the second typescript file. -/
def fnB : SNode :=
  SNode.mk
    { type := "function_declaration".toList, startIndex := 0, endIndex := 13,
      row := 0, col := 0 }
    []

/-- Tree of the second typescript file. -/
def treeB : SNode :=
  SNode.mk
    { type := "program".toList, startIndex := 0, endIndex := 13, row := 0,
      col := 0 }
    [fnB]

/-- Source of the python file of the snapshot. -/
def srcC : Str := "def CCCC 0".toList

/-- Function node of the python file. -/
def fnC : SNode :=
  SNode.mk
    { type := "function_definition".toList, startIndex := 0, endIndex := 10,
      row := 0, col := 0 }
    []

/-- Tree of the python file. -/
def treeC : SNode :=
  SNode.mk
    { type := "module".toList, startIndex := 0, endIndex := 10, row := 0,
      col := 0 }
    [fnC]

/-- Search environment of the snapshot: three readable parsable files, one
file whose read fails, every grammar loadable. -/
def envGood : SearchEnv :=
  { readFile := fun p =>
      if p == "/repo/a.ts".toList then some srcA
      else if p == "/repo/b.ts".toList then some srcB
      else if p == "/repo/c.py".toList then some srcC
      else none,
    parse := fun _ src =>
      if src == srcA then some treeA
      else if src == srcB then some treeB
      else if src == srcC then some treeC
      else none,
    grammarOk := fun _ => true,
    globMatch := fun _ _ => true,
    jsonParse := fun _ => none }

/-- The same environment with the python grammar failing to load. -/
def envBad : SearchEnv :=
  { envGood with grammarOk := fun lang => !(lang == "python".toList) }

/-- Directory listing of the snapshot root. -/
def rootEx : List DirTree :=
  [DirTree.file ("a.ts".toList) 10, DirTree.file ("b.ts".toList) 10,
   DirTree.file ("c.py".toList) 10, DirTree.file ("bad.ts".toList) 10]

/-- Arrival schedule in listing order. -/
def schedId : Schedule := fun _ => [0, 1, 2, 3]

/-- Arrival schedule in which the second entry's task completes first. -/
def schedSwap : Schedule := fun _ => [1, 0, 2, 3]

/-- Options of the snapshot searches: free-text pattern function. -/
def optsFn : ASTSearchOptions := { pattern := "function".toList }

/-- The same options capped at one result. -/
def optsFn1 : ASTSearchOptions :=
  { pattern := "function".toList, maxResults := some 1 }

/-- Match the first typescript file contributes. -/
def matchA : ASTMatch :=
  { file := "a.ts".toList, line := 1, column := 0,
    nodeType := "function_declaration".toList, text := srcA,
    context := { nodeType := "function_declaration".toList } }

/-- Match the second typescript file contributes. -/
def matchB : ASTMatch :=
  { file := "b.ts".toList, line := 1, column := 0,
    nodeType := "function_declaration".toList, text := srcB,
    context := { nodeType := "function_declaration".toList } }

/-- Validator environment of the snapshot: the default path is the existing
repository directory. -/
def venvEx : ValidateEnv :=
  { defaultPath := "/repo".toList,
    normalize := fun p => p,
    pathExists := fun p => p == "/repo".toList,
    isDirectory := fun p => p == "/repo".toList,
    globValid := fun g => some g }

/-- Inputs of the C5 counterexample: a well-formed pattern and an
explicitly empty root path. -/
def c5Inputs : AstSearchInputs :=
  { pattern := "function".toList, path := some [] }

/-- Inputs of the C5 witness: an empty pattern. -/
def c5EmptyInputs : AstSearchInputs := { pattern := [] }

theorem joinMapD_append (f : α → Option (List β)) (l₁ l₂ : List α) :
    joinMapD f (l₁ ++ l₂) = joinMapD f l₁ ++ joinMapD f l₂ := by
  simp [joinMapD]

theorem chunkAux_flatten (cs : Nat) :
    ∀ (k : Nat) (l acc : List α), (chunkAux cs k l acc).flatten = acc.reverse ++ l := by
  intro k l
  induction l generalizing k with
  | nil =>
      intro acc
      by_cases h : acc = [] <;> simp [chunkAux, h]
  | cons x xs ih =>
      intro acc
      cases k with
      | zero => simp [chunkAux, ih]
      | succ k => simp [chunkAux, ih]

theorem chunkify_flatten (cs : Nat) (l : List α) : (chunkify cs l).flatten = l := by
  cases l with
  | nil => rfl
  | cons x xs => simp [chunkify, chunkAux_flatten]

theorem goChunks_take (mr : Nat) (f : α → Option (List β)) :
    ∀ (chunks : List (List α)) (acc : List β),
      (goChunks mr f chunks acc).take mr = (acc ++ joinMapD f chunks.flatten).take mr := by
  intro chunks
  induction chunks with
  | nil => intro acc; simp [goChunks, joinMapD]
  | cons c rest ih =>
      intro acc
      by_cases h : mr ≤ acc.length
      · rw [goChunks, if_pos h, List.take_append_of_le_length h]
      · rw [goChunks, if_neg h, ih]
        simp [joinMapD_append, joinMapD, List.append_assoc]

/-- The chunked capped processor computes the discovery-order join of the
per-item contributions, truncated to the cap: chunk boundaries and the
early-termination test do not change the result. -/
theorem processInParallelChunks_eq (cs mr : Nat) (f : α → Option (List β))
    (items : List α) :
    processInParallelChunks cs mr f items = (joinMapD f items).take mr := by
  rw [processInParallelChunks, goChunks_take]
  simp [chunkify_flatten]

/-- An item that contributes nothing, whether through the onError fallback
of a failed item or through an empty per-item result, leaves the output the
same as with the item removed from the work list. -/
theorem processInParallelChunks_middle_nil (cs mr : Nat)
    (f : α → Option (List β)) (l₁ l₂ : List α) (bad : α)
    (h : (f bad).getD [] = []) :
    processInParallelChunks cs mr f (l₁ ++ bad :: l₂) =
      processInParallelChunks cs mr f (l₁ ++ l₂) := by
  rw [processInParallelChunks_eq, processInParallelChunks_eq]
  have : joinMapD f (l₁ ++ bad :: l₂) = joinMapD f (l₁ ++ l₂) := by
    rw [joinMapD_append, joinMapD_append]
    simp [joinMapD, h]
  rw [this]

set_option maxRecDepth 4096 in
/-- Claim C2, counterexample: for the 501-character node text, the claim
says the reported text is exactly 500 characters of the content followed by
a truncation marker, so its first 500 characters would be the first 500
characters of the node text; truncateText instead keeps only 497 characters
of content before the three-dot marker. -/
theorem C2_counterexample :
    (truncateText (List.replicate 501 'a')).take 500 ≠
      (List.replicate 501 'a').take 500 := by decide

/-- Claim C2, amended: a node text of at most 500 characters (the exact
boundary included) is reported unmodified; a longer text is reported as its
first 497 characters followed by the three-character marker, 500 characters
in total. -/
theorem C2_amended (t : Str) :
    (t.length ≤ 500 → truncateText t = t) ∧
    (500 < t.length → truncateText t = t.take 497 ++ "...".toList) := by
  constructor
  · intro h
    simp [truncateText, MAX_TEXT_LENGTH, h]
  · intro h
    have hn : ¬ t.length ≤ 500 := by omega
    simp [truncateText, MAX_TEXT_LENGTH, hn]

set_option maxRecDepth 4096 in
/-- Claim C2, witness: the amended statement evaluated at the boundary text
of exactly 500 characters and at a 501-character text. -/
theorem C2_witness :
    truncateText (List.replicate 500 'b') = List.replicate 500 'b' ∧
    truncateText (List.replicate 501 'b') =
      (List.replicate 501 'b').take 497 ++ "...".toList :=
  ⟨(C2_amended (List.replicate 500 'b')).1 (by decide),
   (C2_amended (List.replicate 501 'b')).2 (by decide)⟩

/-- Claim C10: a free-text pattern whose lower-cased text contains async
but none of the construct keywords compiles to a pattern with only the
async flag set and an empty criteria object, and such a pattern matches no
node of any tree: the async flag alone triggers neither the construct
branch nor the text-fallback branch. -/
theorem C10_thm (patternText : Str) (n : SNode) (source : Str)
    (hAsync : strIncludes (toLowerStr patternText) "async".toList = true)
    (hFunction : strIncludes (toLowerStr patternText) "function".toList = false)
    (hDef : strIncludes (toLowerStr patternText) "def".toList = false)
    (hMethod : strIncludes (toLowerStr patternText) "method".toList = false)
    (hClass : strIncludes (toLowerStr patternText) "class".toList = false)
    (hTry : strIncludes (toLowerStr patternText) "try".toList = false)
    (hCatch : strIncludes (toLowerStr patternText) "catch".toList = false)
    (hImport : strIncludes (toLowerStr patternText) "import".toList = false)
    (hExport : strIncludes (toLowerStr patternText) "export".toList = false) :
    (compileSimple patternText).matches n source = false := by
  simp_all [ASTPattern.matches, compileSimple, matchesSimple]

/-- Claim C10, witness: the bare pattern async matches nothing, here at a
concrete identifier node. -/
theorem C10_witness :
    (compileSimple "async".toList).matches c10Node "abc".toList = false :=
  C10_thm "async".toList c10Node "abc".toList (by decide) (by decide) (by decide)
    (by decide) (by decide) (by decide) (by decide) (by decide) (by decide)

/-- Claim C8: when a free-text pattern requests both async and a
definition, an accepted node necessarily has the async modifier (a direct
child of type async or the substring async within the first 10 characters
of its text, which is what hasAsyncModifier tests); and the pattern
async function applied to a file with one async and one non-async function
yields exactly one match, the async one. -/
theorem C8_thm :
    (∀ (p : ASTPattern) (n : SNode) (source : Str),
        p.isAsync = true → p.isDef = true →
        matchesSimple p n source = true → hasAsyncModifier n source = true) ∧
    searchTree (compileSimple "async function".toList) c8Src "/repo".toList
        "/repo/a.ts".toList c8Root = [c8Match] := by
  constructor
  · intro p n source hA hD hm
    by_cases hasy : hasAsyncModifier n source = true
    · exact hasy
    · exfalso
      simp only [Bool.not_eq_true] at hasy
      simp [matchesSimple, hA, hD, hasy] at hm
  · decide

/-- Claim C8, witness: the only-if direction applied to the async function
node of the concrete file. -/
theorem C8_witness : hasAsyncModifier c8Fn1 c8Src = true :=
  C8_thm.1 (compileSimple ("async function".toList)) c8Fn1 c8Src
    (by decide) (by decide) (by decide)


/-- Helper: a list known to be non-nil has isEmpty false. -/
theorem isEmpty_eq_false_of_ne_nil {l : Str} (h : l ≠ []) : l.isEmpty = false := by
  cases l with
  | nil => exact absurd rfl h
  | cons a as => rfl

/-- Claim C1, counterexample: for the criteria object whose only given
field is async = false and a node without the async modifier, every given
field holds of the node (the async-modifier equality in particular), yet
matchesPattern returns false, because the final no-criteria test of the
source treats async = false like an absent field; so matches is not
equivalent to the conjunction of the given-field checks. -/
theorem C1_counterexample :
    c1Crit.type = none ∧ c1Crit.name = none ∧ c1Crit.textMatch = none ∧
    ¬ ((matchesPattern c1Crit c1Node c1Src = true) ↔
        (∀ b, c1Crit.async = some b → hasAsyncModifier c1Node c1Src = b)) := by
  decide

/-- Claim C1, amended: for criteria whose given string fields are
non-empty, matchesPattern agrees with the field-by-field matcher
matchesPatternSpec: every given field must hold and at least one field must
be effectively present, where async = false does not count as present (so a
criteria object whose only given field is async = false matches nothing,
exactly as the empty criteria object does). -/
theorem C1_amended (c : PatternCriteria) (n : SNode) (source : Str)
    (ht : c.type ≠ some []) (hn : c.name ≠ some []) (hm : c.textMatch ≠ some []) :
    matchesPattern c n source = matchesPatternSpec c n source := by
  rcases c with ⟨ct, ca, cn, cm⟩
  rcases ct with _ | t <;> rcases ca with _ | b <;> rcases cn with _ | nm <;>
    rcases cm with _ | tm <;>
    simp_all [matchesPattern, matchesPatternSpec, truthyS,
      isEmpty_eq_false_of_ne_nil] <;>
    (try rw [Bool.eq_iff_iff]) <;>
    (try simp [beq_eq_decide, Bool.and_assoc])

/-- Claim C1, witness: the amended equivalence evaluated at the criteria
object requesting the type function_declaration, on a node of that type
(both sides true), and at the empty criteria object (both sides false). -/
theorem C1_witness :
    matchesPattern { type := some ("function_declaration".toList) } c8Fn1 c8Src =
      matchesPatternSpec { type := some ("function_declaration".toList) } c8Fn1 c8Src ∧
    matchesPattern {} c1Node c1Src = matchesPatternSpec {} c1Node c1Src :=
  ⟨C1_amended _ c8Fn1 c8Src (by decide) (by decide) (by decide),
   C1_amended {} c1Node c1Src (by decide) (by decide) (by decide)⟩

/-- Claim C9: context is computed by walking from the matched node toward
the root and stopping at the first function-classified or class-classified
ancestor.  When the first such ancestor is function-classified,
parentFunction carries its name and parentClass stays absent; when it is
class-classified, parentClass carries its name and parentFunction stays
absent; when no ancestor is of either kind, neither field is set. -/
theorem C9_thm :
    (∀ (n : SNode) (source : Str) (pre : List SNode) (p : SNode) (rest : List SNode),
        (∀ q ∈ pre, isFunctionNodeS q.ntype = false ∧ isClassNodeS q.ntype = false) →
        isFunctionNodeS p.ntype = true →
        getContext n (pre ++ p :: rest) source =
          { nodeType := n.ntype, parentFunction := getNodeNameS p source }) ∧
    (∀ (n : SNode) (source : Str) (pre : List SNode) (p : SNode) (rest : List SNode),
        (∀ q ∈ pre, isFunctionNodeS q.ntype = false ∧ isClassNodeS q.ntype = false) →
        isFunctionNodeS p.ntype = false → isClassNodeS p.ntype = true →
        getContext n (pre ++ p :: rest) source =
          { nodeType := n.ntype, parentClass := getNodeNameS p source }) ∧
    (∀ (n : SNode) (source : Str) (anc : List SNode),
        (∀ q ∈ anc, isFunctionNodeS q.ntype = false ∧ isClassNodeS q.ntype = false) →
        getContext n anc source = { nodeType := n.ntype }) := by
  refine ⟨?_, ?_, ?_⟩
  · intro n source pre
    induction pre with
    | nil =>
        intro p rest _ hf
        simp [getContext, getContextWalk, hf]
    | cons q qs ih =>
        intro p rest hpre hf
        have hq := hpre q (by simp)
        simp only [getContext, List.cons_append, getContextWalk, hq.1, hq.2,
          Bool.false_eq_true, if_false]
        simpa [getContext] using ih p rest (fun r hr => hpre r (by simp [hr])) hf
  · intro n source pre
    induction pre with
    | nil =>
        intro p rest _ hf hc
        simp [getContext, getContextWalk, hf, hc]
    | cons q qs ih =>
        intro p rest hpre hf hc
        have hq := hpre q (by simp)
        simp only [getContext, List.cons_append, getContextWalk, hq.1, hq.2,
          Bool.false_eq_true, if_false]
        simpa [getContext] using
          ih p rest (fun r hr => hpre r (by simp [hr])) hf hc
  · intro n source anc
    induction anc with
    | nil => intro _; simp [getContext, getContextWalk]
    | cons q qs ih =>
        intro hanc
        have hq := hanc q (by simp)
        simp only [getContext, getContextWalk, hq.1, hq.2,
          Bool.false_eq_true, if_false]
        simpa [getContext] using ih (fun r hr => hanc r (by simp [hr]))

/-- Claim C9, witness: a node inside a method inside a class reports the
method as parentFunction with parentClass absent; the same node with only
the class as ancestor reports parentClass with parentFunction absent. -/
theorem C9_witness :
    getContext c9Inner [c9Method, c9Class] c9Src =
      { nodeType := "identifier".toList, parentFunction := some ("m".toList) } ∧
    getContext c9Inner [c9Class] c9Src =
      { nodeType := "identifier".toList, parentClass := some ("C".toList) } :=
  ⟨C9_thm.1 c9Inner c9Src [] c9Method [c9Class] (by simp) (by decide),
   C9_thm.2.1 c9Inner c9Src [] c9Class [] (by simp) (by decide) (by decide)⟩

/-- Claim C3: whenever the discovered files hold more matches in total than
the result cap, the search returns exactly maxResults matches, and count
equals the length of the returned match list. -/
theorem C3_thm (env : SearchEnv) (sched : Schedule) (repoPath : Str)
    (root : List DirTree) (options : ASTSearchOptions)
    (h : options.maxResults.getD 100 <
      (joinMapD
        (searchFile env repoPath
          (ASTPattern.create env.jsonParse options.pattern
            (options.mode.getD SearchMode.simple)))
        (getMatchingFiles env sched repoPath options.filePattern root)).length) :
    (searchPattern env sched repoPath root options).matchList.length =
      options.maxResults.getD 100 ∧
    (searchPattern env sched repoPath root options).count =
      (searchPattern env sched repoPath root options).matchList.length := by
  constructor
  · simp only [searchPattern, processInParallelChunks_eq, List.length_take]
    omega
  · rfl

/-- Claim C3, witness: the snapshot search capped at one result, with three
matches available, returns exactly one match. -/
theorem C3_witness :
    (searchPattern envGood schedId repoPathEx rootEx optsFn1).matchList.length = 1 ∧
    (searchPattern envGood schedId repoPathEx rootEx optsFn1).count =
      (searchPattern envGood schedId repoPathEx rootEx optsFn1).matchList.length :=
  C3_thm envGood schedId repoPathEx rootEx optsFn1 (by decide)

/-- Claim C7: a candidate file whose processing fails (a none result of
searchFile, handed to the onError fallback) or parses to a null tree (an
empty contribution) leaves the search output exactly as if the file were
absent from the work list, and the search never aborts: the processor is
total. -/
theorem C7_thm (env : SearchEnv) (repoPath : Str) (p : ASTPattern) (mr : Nat)
    (l₁ l₂ : List Str) (bad : Str)
    (h : searchFile env repoPath p bad = none ∨
      searchFile env repoPath p bad = some []) :
    processInParallelChunks PARALLEL_CHUNK_SIZE mr (searchFile env repoPath p)
        (l₁ ++ bad :: l₂) =
      processInParallelChunks PARALLEL_CHUNK_SIZE mr (searchFile env repoPath p)
        (l₁ ++ l₂) := by
  apply processInParallelChunks_middle_nil
  rcases h with h | h <;> simp [h]

/-- Claim C7, witness: the snapshot file whose read fails, placed between
the two valid typescript files, leaves their contributions unchanged. -/
theorem C7_witness :
    processInParallelChunks PARALLEL_CHUNK_SIZE 100
        (searchFile envGood repoPathEx (compileSimple ("function".toList)))
        ["/repo/a.ts".toList, "/repo/bad.ts".toList, "/repo/b.ts".toList] =
      processInParallelChunks PARALLEL_CHUNK_SIZE 100
        (searchFile envGood repoPathEx (compileSimple ("function".toList)))
        ["/repo/a.ts".toList, "/repo/b.ts".toList] :=
  C7_thm envGood repoPathEx (compileSimple ("function".toList)) 100
    ["/repo/a.ts".toList] ["/repo/b.ts".toList] ("/repo/bad.ts".toList)
    (Or.inl (by decide))

/-- Claim C4, counterexample: in the snapshot whose python grammar cannot
be loaded, the python file is a discovered candidate, yet the search
completes normally with the matches of the other files — the grammar load
failure is absorbed by the per-file onError fallback of the searcher, not
raised as a search-level error, and no GrammarLoadError type exists in the
code. -/
theorem C4_counterexample :
    detectLanguage ("/repo/c.py".toList) = some ("python".toList) ∧
    envBad.grammarOk ("python".toList) = false ∧
    getMatchingFiles envBad schedId repoPathEx none rootEx =
      ["/repo/a.ts".toList, "/repo/b.ts".toList, "/repo/c.py".toList,
        "/repo/bad.ts".toList] ∧
    searchPattern envBad schedId repoPathEx rootEx optsFn =
      { count := 2, matchList := [matchA, matchB],
        pattern := "function".toList, mode := SearchMode.simple,
        path := repoPathEx } := by
  decide

/-- Claim C4, amended: a candidate file whose language grammar cannot be
loaded is a per-file failure: searchFile rejects (returns none), the
onError fallback stands in the empty contribution, and the search output
equals the output with the file absent; the whole search does not fail. -/
theorem C4_amended (env : SearchEnv) (repoPath : Str) (p : ASTPattern)
    (mr : Nat) (l₁ l₂ : List Str) (path lang : Str)
    (hl : detectLanguage path = some lang) (hg : env.grammarOk lang = false) :
    searchFile env repoPath p path = none ∧
    processInParallelChunks PARALLEL_CHUNK_SIZE mr (searchFile env repoPath p)
        (l₁ ++ path :: l₂) =
      processInParallelChunks PARALLEL_CHUNK_SIZE mr (searchFile env repoPath p)
        (l₁ ++ l₂) := by
  have hsf : searchFile env repoPath p path = none := by
    simp [searchFile, hl, hg]
  exact ⟨hsf, processInParallelChunks_middle_nil _ _ _ _ _ _ (by simp [hsf])⟩

/-- Claim C4, witness: the amended statement at the python file of the
snapshot without a python grammar. -/
theorem C4_witness :
    searchFile envBad repoPathEx (compileSimple ("function".toList))
        ("/repo/c.py".toList) = none ∧
    processInParallelChunks PARALLEL_CHUNK_SIZE 100
        (searchFile envBad repoPathEx (compileSimple ("function".toList)))
        ["/repo/a.ts".toList, "/repo/c.py".toList, "/repo/b.ts".toList] =
      processInParallelChunks PARALLEL_CHUNK_SIZE 100
        (searchFile envBad repoPathEx (compileSimple ("function".toList)))
        ["/repo/a.ts".toList, "/repo/b.ts".toList] :=
  C4_amended envBad repoPathEx (compileSimple ("function".toList)) 100
    ["/repo/a.ts".toList] ["/repo/b.ts".toList] ("/repo/c.py".toList)
    ("python".toList) (by decide) (by decide)

/-- Claim C6, counterexample: two runs of the same search against the same
unchanged snapshot, differing only in the order in which the concurrent
stat tasks of the directory walk complete, return differently ordered
result lists: walkDirectory pushes files in completion order under its
Promise.all, so the result order is not a function of the directory
snapshot alone. -/
theorem C6_counterexample :
    searchPattern envGood schedId repoPathEx rootEx optsFn ≠
      searchPattern envGood schedSwap repoPathEx rootEx optsFn := by
  decide

/-- Claim C6, amended: two runs with the same arrival schedule return the
same ordered result list, and the matches are the per-file contributions
merged in the order of the discovered file list (truncated to the cap) —
the parse phase merges in file-list order, never in parse-completion
order. -/
theorem C6_amended (env : SearchEnv) (sched : Schedule) (repoPath : Str)
    (root : List DirTree) (options : ASTSearchOptions) :
    searchPattern env sched repoPath root options =
      searchPattern env sched repoPath root options ∧
    (searchPattern env sched repoPath root options).matchList =
      (joinMapD
        (searchFile env repoPath
          (ASTPattern.create env.jsonParse options.pattern
            (options.mode.getD SearchMode.simple)))
        (getMatchingFiles env sched repoPath options.filePattern root)).take
        (options.maxResults.getD 100) := by
  refine ⟨rfl, ?_⟩
  simp [searchPattern, processInParallelChunks_eq]

/-- Claim C5, counterexample: a call with an explicitly empty root path is
not rejected: the validator substitutes the default repository path for the
empty string, validation succeeds and the search runs. -/
theorem C5_counterexample :
    c5Inputs.path = some [] ∧
    (validateAstSearchInputs venvEx c5Inputs).valid = true ∧
    astSearchTool venvEx envGood schedId rootEx c5Inputs =
      Except.ok (searchPattern envGood schedId ("/repo".toList) rootEx
        { pattern := "function".toList, mode := some SearchMode.simple,
          filePattern := none, maxResults := some 100 }) :=
  ⟨by decide, by decide, rfl⟩

/-- Claim C5, amended: a call whose pattern is empty or whitespace-only is
rejected by the validator as an input error and the search never runs (the
tool returns the validation errors); an empty root path, by contrast, is
replaced by the default repository path. -/
theorem C5_amended (venv : ValidateEnv) (env : SearchEnv) (sched : Schedule)
    (root : List DirTree) (inputs : AstSearchInputs)
    (h : (trimStr inputs.pattern).isEmpty = true) :
    (validateAstSearchInputs venv inputs).valid = false ∧
    astSearchTool venv env sched root inputs =
      Except.error (validateAstSearchInputs venv inputs).errors := by
  have hv : (validateAstSearchInputs venv inputs).valid = false := by
    simp [validateAstSearchInputs, h]
  refine ⟨hv, ?_⟩
  simp [astSearchTool, hv]

/-- Claim C5, witness: the empty pattern is rejected and the tool returns
the validation errors without searching. -/
theorem C5_witness :
    (validateAstSearchInputs venvEx c5EmptyInputs).valid = false ∧
    astSearchTool venvEx envGood schedId rootEx c5EmptyInputs =
      Except.error (validateAstSearchInputs venvEx c5EmptyInputs).errors :=
  C5_amended venvEx envGood schedId rootEx c5EmptyInputs (by decide)
